import Mathlib

/-!
Shallow embedding of the vectorized function-execution core of the repository
(dbms/src/Functions): the dateDiff dispatcher, arrayConcat, arrayPop
(popFront / popBack) and isNotNull, together with theorems checking the
natural-language specification against these definitions.

Machine integers of the source (UInt16, UInt32 values; Int64 results) are
modelled as Nat / Int: the per-unit transforms are abstract parameters
returning unsigned values, the only arithmetic performed by the code itself
is the Int64 subtraction in FunctionDateDiff::calculate, which is exact.
Timezones (DateLUTImpl) are opaque to this core and modelled as Nat tokens.
-/

namespace CH

/-- Error taxonomy of the source (ErrorCodes): the constructors carry the
argument position (for illegalColumn) and the message text. -/
inductive DBErr where
  | illegalColumn : Nat → String → DBErr
  | badArguments : String → DBErr
  | logicalError : String → DBErr
deriving DecidableEq

/-- ASCII lowercasing of one character, as Poco::toLower does per byte. -/
def asciiToLower (c : Char) : Char :=
  if 65 ≤ c.toNat ∧ c.toNat ≤ 90 then Char.ofNat (c.toNat + 32) else c

/-- String lowercasing: Poco::toLower applied in FunctionDateDiff::executeImpl. -/
def strToLower (s : String) : String :=
  String.mk (s.data.map asciiToLower)

/-- The eight relative-unit transforms dateDiff dispatches to
(ToRelativeYearNumImpl .. ToRelativeSecondNumImpl); which transform runs is
all the dispatcher depends on, so they are named by tag here and the
transform functions themselves stay abstract parameters. -/
inductive UnitTag where
  | year | quarter | month | week | day | hour | minute | second
deriving DecidableEq

/-- Unit-keyword resolution: the if-else chain of FunctionDateDiff::executeImpl
over the already-lowercased unit string. -/
def resolveUnit (unit : String) : Option UnitTag :=
  if unit = "year" ∨ unit = "yy" ∨ unit = "yyyy" then some .year
  else if unit = "quarter" ∨ unit = "qq" ∨ unit = "q" then some .quarter
  else if unit = "month" ∨ unit = "mm" ∨ unit = "m" then some .month
  else if unit = "week" ∨ unit = "wk" ∨ unit = "ww" then some .week
  else if unit = "day" ∨ unit = "dd" ∨ unit = "d" then some .day
  else if unit = "hour" ∨ unit = "hh" then some .hour
  else if unit = "minute" ∨ unit = "mi" ∨ unit = "n" then some .minute
  else if unit = "second" ∨ unit = "ss" ∨ unit = "s" then some .second
  else none

/-- The fixed alias groups of the unit keywords, as the spec lists them. -/
def aliasGroups : List (List String) :=
  [["year", "yy", "yyyy"], ["quarter", "qq", "q"], ["month", "mm", "m"],
   ["week", "wk", "ww"], ["day", "dd", "d"], ["hour", "hh"],
   ["minute", "mi", "n"], ["second", "ss", "s"]]

/-- The runtime shapes FunctionDateDiff::dispatchForColumns distinguishes for a
temporal argument column: UInt16 / UInt32 vectors, UInt16 / UInt32 constants,
and anything else (which it rejects). Payload values are modelled as Nat. -/
inductive DCol where
  | vec16 : List Nat → DCol
  | vec32 : List Nat → DCol
  | const16 : Nat → DCol
  | const32 : Nat → DCol
  | other : DCol
deriving DecidableEq

/-- Whether the column shape is one of the two vector encodings. -/
def DCol.isVec : DCol → Bool
  | .vec16 _ => true
  | .vec32 _ => true
  | _ => false

/-- Whether the column shape is one of the two constant encodings. -/
def DCol.isConst : DCol → Bool
  | .const16 _ => true
  | .const32 _ => true
  | _ => false

/-- The value a column serves at a given row (a constant serves its single
value at every row). -/
def DCol.rowVal : DCol → Nat → Nat
  | .vec16 xs, i => xs.getD i 0
  | .vec32 xs, i => xs.getD i 0
  | .const16 c, _ => c
  | .const32 c, _ => c
  | .other, _ => 0

/-- Block invariant for a column: a vector has exactly `rows` entries. -/
def DCol.sizeOk : DCol → Nat → Prop
  | .vec16 xs, rows => xs.length = rows
  | .vec32 xs, rows => xs.length = rows
  | _, _ => True

/-- FunctionDateDiff::calculate: Int64(Transform::execute(y, timezone_y)) −
Int64(Transform::execute(x, timezone_x)). The abstract transform `T` maps
(value, timezone) to an unsigned relative-unit count. -/
def calculate (T : Nat → Nat → Nat) (x y : Nat) (tzx tzy : Nat) : Int :=
  (T y tzy : Int) - (T x tzx : Int)

/-- FunctionDateDiff::vector_vector: the loop runs over x's size and reads both
columns at index i. -/
def vector_vector (T : Nat → Nat → Nat) (xs ys : List Nat) (tzx tzy : Nat) : List Int :=
  (List.range xs.length).map fun i => calculate T (xs.getD i 0) (ys.getD i 0) tzx tzy

/-- FunctionDateDiff::vector_constant: the loop runs over x's size. -/
def vector_constant (T : Nat → Nat → Nat) (xs : List Nat) (y : Nat) (tzx tzy : Nat) : List Int :=
  (List.range xs.length).map fun i => calculate T (xs.getD i 0) y tzx tzy

/-- FunctionDateDiff::constant_vector: the loop runs over y's size. -/
def constant_vector (T : Nat → Nat → Nat) (x : Nat) (ys : List Nat) (tzx tzy : Nat) : List Int :=
  (List.range ys.length).map fun i => calculate T x (ys.getD i 0) tzx tzy

/-- FunctionDateDiff::dispatchConstForSecondColumn: with a constant first
argument only vector second arguments are accepted. -/
def dispatchConstForSecondColumn (T : Nat → Nat → Nat) (x : Nat) (y : DCol)
    (tzx tzy : Nat) : Except DBErr (List Int) :=
  match y with
  | .vec16 ys => .ok (constant_vector T x ys tzx tzy)
  | .vec32 ys => .ok (constant_vector T x ys tzx tzy)
  | _ => .error (.illegalColumn 2
      "Illegal column for second argument of function dateDiff, must be Date or DateTime")

/-- FunctionDateDiff::dispatchForSecondColumn: with a vector first argument,
vector and constant second arguments are accepted. -/
def dispatchForSecondColumn (T : Nat → Nat → Nat) (xs : List Nat) (y : DCol)
    (tzx tzy : Nat) : Except DBErr (List Int) :=
  match y with
  | .vec16 ys => .ok (vector_vector T xs ys tzx tzy)
  | .vec32 ys => .ok (vector_vector T xs ys tzx tzy)
  | .const16 c => .ok (vector_constant T xs c tzx tzy)
  | .const32 c => .ok (vector_constant T xs c tzx tzy)
  | .other => .error (.illegalColumn 2
      "Illegal column for second argument of function dateDiff, must be Date or DateTime")

/-- FunctionDateDiff::dispatchForColumns: stage-1 resolution of the first
temporal argument's shape. -/
def dispatchForColumns (T : Nat → Nat → Nat) (x y : DCol) (tzx tzy : Nat) :
    Except DBErr (List Int) :=
  match x with
  | .vec16 xs => dispatchForSecondColumn T xs y tzx tzy
  | .vec32 xs => dispatchForSecondColumn T xs y tzx tzy
  | .const16 c => dispatchConstForSecondColumn T c y tzx tzy
  | .const32 c => dispatchConstForSecondColumn T c y tzx tzy
  | .other => .error (.illegalColumn 1
      "Illegal column for first argument of function dateDiff, must be Date or DateTime")

/-- FunctionDateDiff::executeImpl after the constant-string check on the unit
argument: lowercase the unit, resolve it against the alias groups, dispatch;
an unmatched unit raises BAD_ARGUMENTS with the lowercased token embedded.
`Tf` supplies the abstract transform for each unit tag. -/
def dateDiffExecuteImpl (Tf : UnitTag → Nat → Nat → Nat) (unitStr : String)
    (x y : DCol) (tzx tzy : Nat) : Except DBErr (List Int) :=
  match resolveUnit (strToLower unitStr) with
  | some tag => dispatchForColumns (Tf tag) x y tzx tzy
  | none => .error (.badArguments
      ("Function dateDiff does not support '" ++ strToLower unitStr ++ "' unit"))

/-- Input column shapes FunctionIsNotNull::executeImpl distinguishes: a
Nullable column (data plus same-length null bitmap) or any non-Nullable
column. -/
inductive InCol (α : Type) where
  | nullable : List α → List Bool → InCol α
  | plain : List α → InCol α

/-- Result column of isNotNull: a UInt8 vector or a Constant UInt8 column
(size, value). -/
inductive OutCol where
  | vec : List Nat → OutCol
  | constant : Nat → Nat → OutCol
deriving DecidableEq

/-- FunctionIsNotNull::executeImpl: for a Nullable input return the negated
null map as a UInt8 vector of input_rows_count entries; otherwise return a
Constant 1 of the input column's size. -/
def isNotNullExecuteImpl {α : Type} (col : InCol α) (input_rows_count : Nat) : OutCol :=
  match col with
  | .nullable _ nullMap =>
      .vec ((List.range input_rows_count).map fun i => if nullMap.getD i false then 0 else 1)
  | .plain vals => .constant vals.length 1

/-- Result-type shapes the array functions look at before slicing: the
declared return type is either only-null or a real array type. -/
inductive RetType where
  | onlyNull
  | array

/-- Argument column shapes arrayConcat / arrayPop distinguish after the cast
to the return type: an array column (rows of element lists), a Constant
wrapping a one-row array column (its single slice), or anything else. -/
inductive ArgCol (α : Type) where
  | arr : List (List α) → ArgCol α
  | constArr : List α → ArgCol α
  | other : ArgCol α
deriving DecidableEq

/-- GatherUtils array source as the algorithms consume it: per-row slices of a
vector array column, or the single fixed slice of a constant array. -/
inductive ArraySource (α : Type) where
  | vec : List (List α) → ArraySource α
  | constSlice : List α → ArraySource α
deriving DecidableEq

/-- Result of an array function: a fresh array column, or the Constant
default-value column of the only-null short-circuit (carrying its size). -/
inductive ArrResult (α : Type) where
  | arr : List (List α) → ArrResult α
  | constDefault : Nat → ArrResult α
deriving DecidableEq

/-- The slice a source serves at row r: a constant source serves its single
fixed slice at every row. -/
def ArraySource.sliceAt {α : Type} : ArraySource α → Nat → List α
  | .vec rows, r => rows.getD r []
  | .constSlice s, _ => s

/-- The per-argument source construction loop of
FunctionArrayConcat::executeImpl: unwrap a Constant into its single slice,
accept an array column as a vector source, and raise LOGICAL_ERROR on
anything else. -/
def toArraySource {α : Type} : ArgCol α → Except DBErr (ArraySource α)
  | .arr rows => .ok (.vec rows)
  | .constArr s => .ok (.constSlice s)
  | .other => .error (.logicalError "Arguments for function arrayConcat must be arrays.")

/-- Total variant of toArraySource used to state what the loop produces on
well-shaped arguments. -/
def toSourceTotal {α : Type} : ArgCol α → ArraySource α
  | .arr rows => .vec rows
  | .constArr s => .constSlice s
  | .other => .vec []

/-- Sequential source-construction over the argument list, aborting at the
first non-array argument, as the executeImpl loop does. -/
def buildSources {α : Type} : List (ArgCol α) → Except DBErr (List (ArraySource α))
  | [] => .ok []
  | c :: rest =>
      match toArraySource c with
      | .error e => .error e
      | .ok s =>
          match buildSources rest with
          | .error e => .error e
          | .ok ss => .ok (s :: ss)

/-- Modelled from the spec: GatherUtils::concat (spec §4.3), whose
implementation is not under src/. For each output row in order, each source
in argument order contributes its current slice (a constant source its single
fixed slice); the row is then finalized, so row r of the output is the
ordered concatenation of the sources' row-r slices. -/
def gatherConcat {α : Type} (sources : List (ArraySource α)) (rows : Nat) : List (List α) :=
  (List.range rows).map fun r => (sources.map fun s => s.sliceAt r).flatten

/-- FunctionArrayConcat::executeImpl after the cast of every argument to the
return type: short-circuit an only-null return type to a Constant default
column, otherwise build the sources and concatenate. -/
def arrayConcatExecuteImpl {α : Type} (ret : RetType) (args : List (ArgCol α))
    (input_rows_count : Nat) : Except DBErr (ArrResult α) :=
  match ret with
  | .onlyNull => .ok (.constDefault input_rows_count)
  | .array =>
      match buildSources args with
      | .error e => .error e
      | .ok sources => .ok (.arr (gatherConcat sources input_rows_count))

/-- The row-r slice an argument contributes (after const unwrapping). -/
def ArgCol.rowSlice {α : Type} : ArgCol α → Nat → List α
  | .arr rows, r => rows.getD r []
  | .constArr s, _ => s
  | .other, _ => []

/-- Modelled from the spec: GatherUtils::sliceFromLeftConstantOffsetUnbounded
(spec §4.3), whose implementation is not under src/. Per row with length n
and k = min(offset, n), the output row is the slice [k, n); an offset past
the row's end yields an empty row. -/
def sliceFromLeftConstantOffsetUnbounded {α : Type} (rows : List (List α)) (offset : Nat) :
    List (List α) :=
  rows.map fun row => row.drop (min offset row.length)

/-- Modelled from the spec: the per-row bounded left slice of
GatherUtils::sliceFromLeftConstantOffsetBounded (spec §4.3), whose
implementation is not under src/. A negative length means "stop that many
elements before the row's end"; the slice is clamped to [offset, n), and
out-of-range or inverted bounds yield an empty row. -/
def boundedSlice {α : Type} (row : List α) (offset : Nat) (len : Int) : List α :=
  let n : Int := row.length
  let stop : Int := if 0 ≤ len then min ((offset : Int) + len) n else n + len
  if stop ≤ (offset : Int) then []
  else (row.drop offset).take (stop - (offset : Int)).toNat

/-- Modelled from the spec: GatherUtils::sliceFromLeftConstantOffsetBounded
applied row by row. -/
def sliceFromLeftConstantOffsetBounded {α : Type} (rows : List (List α)) (offset : Nat)
    (len : Int) : List (List α) :=
  rows.map fun row => boundedSlice row offset len

/-- FunctionArrayPop::executeImpl: short-circuit an only-null return type;
otherwise require an array column (LOGICAL_ERROR else) and apply the
unbounded left slice with offset 1 (popFront) or the bounded left slice with
offset 0 and length −1 (popBack). -/
def arrayPopExecuteImpl {α : Type} (pop_front : Bool) (ret : RetType) (arg : ArgCol α)
    (input_rows_count : Nat) : Except DBErr (ArrResult α) :=
  match ret with
  | .onlyNull => .ok (.constDefault input_rows_count)
  | .array =>
      match arg with
      | .arr rows =>
          if pop_front then .ok (.arr (sliceFromLeftConstantOffsetUnbounded rows 1))
          else .ok (.arr (sliceFromLeftConstantOffsetBounded rows 0 (-1)))
      | _ => .error (.logicalError "First arguments for function must be array.")

/-- Substring test on character lists, used to state that an error message
embeds an offending token. -/
def hasSubstr (needle : List Char) : List Char → Bool
  | [] => needle.isEmpty
  | c :: rest => needle.isPrefixOf (c :: rest) || hasSubstr needle rest

/-! Helper lemmas -/

/-- Reading a mapped range at an in-range index yields the mapped value. -/
lemma getD_map_range {β : Type} (f : Nat → β) (d : β) (n i : Nat) (h : i < n) :
    ((List.range n).map f).getD i d = f i := by
  have hl : i < ((List.range n).map f).length := by simp [h]
  rw [List.getD_eq_getElem _ _ hl]
  simp [List.getElem_map, List.getElem_range]

/-- Mapping getD over the index range of a list rebuilds the list. -/
lemma map_range_getD {β : Type} (l : List β) (d : β) :
    (List.range l.length).map (fun i => l.getD i d) = l := by
  apply List.ext_getElem
  · simp
  · intro i h1 h2
    simp only [List.getElem_map, List.getElem_range]
    exact List.getD_eq_getElem l d h2

/-- What vector_vector computes: row count from x, per-row calculate. -/
lemma vector_vector_spec (T : Nat → Nat → Nat) (xs ys : List Nat) (tzx tzy rows : Nat)
    (hx : xs.length = rows) :
    (vector_vector T xs ys tzx tzy).length = rows ∧
    ∀ i, i < rows → (vector_vector T xs ys tzx tzy).getD i 0
      = calculate T (xs.getD i 0) (ys.getD i 0) tzx tzy := by
  subst hx
  exact ⟨by simp [vector_vector], fun i h => getD_map_range _ _ _ _ h⟩

/-- What vector_constant computes: row count from x, per-row calculate. -/
lemma vector_constant_spec (T : Nat → Nat → Nat) (xs : List Nat) (y : Nat)
    (tzx tzy rows : Nat) (hx : xs.length = rows) :
    (vector_constant T xs y tzx tzy).length = rows ∧
    ∀ i, i < rows → (vector_constant T xs y tzx tzy).getD i 0
      = calculate T (xs.getD i 0) y tzx tzy := by
  subst hx
  exact ⟨by simp [vector_constant], fun i h => getD_map_range _ _ _ _ h⟩

/-- What constant_vector computes: row count from y, per-row calculate. -/
lemma constant_vector_spec (T : Nat → Nat → Nat) (x : Nat) (ys : List Nat)
    (tzx tzy rows : Nat) (hy : ys.length = rows) :
    (constant_vector T x ys tzx tzy).length = rows ∧
    ∀ i, i < rows → (constant_vector T x ys tzx tzy).getD i 0
      = calculate T x (ys.getD i 0) tzx tzy := by
  subst hy
  exact ⟨by simp [constant_vector], fun i h => getD_map_range _ _ _ _ h⟩

/-- Alias groups resolve consistently: any two members of one group resolve to
the same unit tag, and members always resolve. -/
lemma resolveUnit_aliasGroups_const :
    ∀ g ∈ aliasGroups, ∀ a ∈ g, ∀ b ∈ g,
      resolveUnit a = resolveUnit b ∧ (resolveUnit a).isSome = true := by decide

/-- A list is a substring of itself followed by anything. -/
lemma isPrefixOf_self_append (n post : List Char) : n.isPrefixOf (n ++ post) = true := by
  induction n with
  | nil => cases post <;> rfl
  | cons c cs ih => simp [List.isPrefixOf, ih]

/-- A prefixed needle is found by hasSubstr. -/
lemma hasSubstr_of_isPrefixOf (n hay : List Char) (h : n.isPrefixOf hay = true) :
    hasSubstr n hay = true := by
  cases hay with
  | nil =>
    cases n with
    | nil => rfl
    | cons c cs => simp [List.isPrefixOf] at h
  | cons c rest => simp [hasSubstr, h]

/-- hasSubstr finds a needle embedded between any two lists. -/
lemma hasSubstr_append (pre n post : List Char) : hasSubstr n (pre ++ n ++ post) = true := by
  induction pre with
  | nil => exact hasSubstr_of_isPrefixOf _ _ (isPrefixOf_self_append n post)
  | cons c cs ih =>
    have ih2 : hasSubstr n (cs ++ (n ++ post)) = true := by
      simpa [List.append_assoc] using ih
    simp [hasSubstr, List.cons_append, ih2]

/-- On well-shaped arguments the source-construction loop succeeds and yields
the per-argument sources. -/
lemma buildSources_ok {α : Type} (args : List (ArgCol α))
    (h : ∀ c ∈ args, c ≠ ArgCol.other) :
    buildSources args = Except.ok (args.map toSourceTotal) := by
  induction args with
  | nil => rfl
  | cons c rest ih =>
    have hc : c ≠ ArgCol.other := h c (by simp)
    have hrest := ih (fun d hd => h d (by simp [hd]))
    cases c with
    | arr rows => simp [buildSources, toArraySource, toSourceTotal, hrest]
    | constArr s => simp [buildSources, toArraySource, toSourceTotal, hrest]
    | other => exact absurd rfl hc

/-- The slice a well-shaped argument's source serves at row r is the
argument's row-r slice. -/
lemma sliceAt_toSourceTotal {α : Type} (c : ArgCol α) (hc : c ≠ ArgCol.other) (r : Nat) :
    (toSourceTotal c).sliceAt r = c.rowSlice r := by
  cases c with
  | arr rows => rfl
  | constArr s => rfl
  | other => exact absurd rfl hc

/-- The pop-back slice (offset 0, length −1) drops exactly the last element
of every row and sends the empty row to the empty row. -/
lemma boundedSlice_zero_neg_one {α : Type} (row : List α) :
    boundedSlice row 0 (-1) = row.dropLast := by
  rw [List.dropLast_eq_take]
  unfold boundedSlice
  have hneg : ¬ ((0 : Int) ≤ (-1 : Int)) := by decide
  simp only [if_neg hneg, Nat.cast_zero]
  by_cases h : (row.length : Int) + (-1) ≤ (0 : Int)
  · rw [if_pos h]
    have hl : row.length - 1 = 0 := by omega
    rw [hl]
    simp
  · rw [if_neg h]
    have h2 : ((row.length : Int) + (-1)).toNat = row.length - 1 := by omega
    simp [h2]

/-! Claim theorems -/

/-- C1: for every supported argument shape of dateDiff (UInt16/UInt32 vector
or constant on each side, excluding constant×constant) and every unit
transform, the dispatcher succeeds and the value at each row i equals
Int64(Transform(y_i, timezone_y)) − Int64(Transform(x_i, timezone_x)). -/
theorem dateDiff_rowwise_correct (T : Nat → Nat → Nat) (x y : DCol) (tzx tzy rows : Nat)
    (hx : x.isVec = true ∨ x.isConst = true) (hy : y.isVec = true ∨ y.isConst = true)
    (hcc : ¬ (x.isConst = true ∧ y.isConst = true))
    (hxs : x.sizeOk rows) (hys : y.sizeOk rows) :
    ∃ res, dispatchForColumns T x y tzx tzy = Except.ok res ∧
      res.length = rows ∧
      ∀ i, i < rows → res.getD i 0 = calculate T (x.rowVal i) (y.rowVal i) tzx tzy := by
  cases x with
  | other => simp [DCol.isVec, DCol.isConst] at hx
  | vec16 xs =>
    simp only [DCol.sizeOk] at hxs
    cases y with
    | other => simp [DCol.isVec, DCol.isConst] at hy
    | vec16 ys => exact ⟨_, rfl, vector_vector_spec T xs ys tzx tzy rows hxs⟩
    | vec32 ys => exact ⟨_, rfl, vector_vector_spec T xs ys tzx tzy rows hxs⟩
    | const16 c => exact ⟨_, rfl, vector_constant_spec T xs c tzx tzy rows hxs⟩
    | const32 c => exact ⟨_, rfl, vector_constant_spec T xs c tzx tzy rows hxs⟩
  | vec32 xs =>
    simp only [DCol.sizeOk] at hxs
    cases y with
    | other => simp [DCol.isVec, DCol.isConst] at hy
    | vec16 ys => exact ⟨_, rfl, vector_vector_spec T xs ys tzx tzy rows hxs⟩
    | vec32 ys => exact ⟨_, rfl, vector_vector_spec T xs ys tzx tzy rows hxs⟩
    | const16 c => exact ⟨_, rfl, vector_constant_spec T xs c tzx tzy rows hxs⟩
    | const32 c => exact ⟨_, rfl, vector_constant_spec T xs c tzx tzy rows hxs⟩
  | const16 cx =>
    cases y with
    | other => simp [DCol.isVec, DCol.isConst] at hy
    | vec16 ys =>
      simp only [DCol.sizeOk] at hys
      exact ⟨_, rfl, constant_vector_spec T cx ys tzx tzy rows hys⟩
    | vec32 ys =>
      simp only [DCol.sizeOk] at hys
      exact ⟨_, rfl, constant_vector_spec T cx ys tzx tzy rows hys⟩
    | const16 c => exact absurd ⟨rfl, rfl⟩ hcc
    | const32 c => exact absurd ⟨rfl, rfl⟩ hcc
  | const32 cx =>
    cases y with
    | other => simp [DCol.isVec, DCol.isConst] at hy
    | vec16 ys =>
      simp only [DCol.sizeOk] at hys
      exact ⟨_, rfl, constant_vector_spec T cx ys tzx tzy rows hys⟩
    | vec32 ys =>
      simp only [DCol.sizeOk] at hys
      exact ⟨_, rfl, constant_vector_spec T cx ys tzx tzy rows hys⟩
    | const16 c => exact absurd ⟨rfl, rfl⟩ hcc
    | const32 c => exact absurd ⟨rfl, rfl⟩ hcc

/-- C1 witness: a UInt16 vector against a UInt32 constant at two rows. -/
theorem dateDiff_rowwise_correct_witness :
    ∃ res, dispatchForColumns (fun v t => v + t) (DCol.vec16 [1, 2]) (DCol.const32 5) 3 4
        = Except.ok res ∧
      res.length = 2 ∧
      ∀ i, i < 2 → res.getD i 0
        = calculate (fun v t => v + t) ((DCol.vec16 [1, 2]).rowVal i)
            ((DCol.const32 5).rowVal i) 3 4 :=
  dateDiff_rowwise_correct (fun v t => v + t) (DCol.vec16 [1, 2]) (DCol.const32 5) 3 4 2
    (Or.inl rfl) (Or.inr rfl) (by decide) rfl trivial

/-- C5: unit-keyword resolution is case-insensitive and alias-invariant; two
unit strings whose case-folded forms lie in the same alias group give
identical results on every input. -/
theorem dateDiff_unit_alias_invariant (g : List String) (u1 u2 : String)
    (hg : g ∈ aliasGroups) (h1 : strToLower u1 ∈ g) (h2 : strToLower u2 ∈ g)
    (Tf : UnitTag → Nat → Nat → Nat) (x y : DCol) (tzx tzy : Nat) :
    dateDiffExecuteImpl Tf u1 x y tzx tzy = dateDiffExecuteImpl Tf u2 x y tzx tzy := by
  obtain ⟨heq, hsome⟩ := resolveUnit_aliasGroups_const g hg _ h1 _ h2
  obtain ⟨t, ht⟩ := Option.isSome_iff_exists.mp hsome
  have ht2 : resolveUnit (strToLower u2) = some t := heq.symm.trans ht
  unfold dateDiffExecuteImpl
  rw [ht, ht2]

/-- C5 witness: "YEAR" and "yy" agree on a concrete input. -/
theorem dateDiff_unit_alias_invariant_witness :
    dateDiffExecuteImpl (fun _ v t => v + t) "YEAR" (DCol.vec16 [3]) (DCol.const32 7) 1 2
      = dateDiffExecuteImpl (fun _ v t => v + t) "yy" (DCol.vec16 [3]) (DCol.const32 7) 1 2 :=
  dateDiff_unit_alias_invariant ["year", "yy", "yyyy"] "YEAR" "yy"
    (by decide) (by decide) (by decide) (fun _ v t => v + t) (DCol.vec16 [3]) (DCol.const32 7) 1 2

/-- C6 counterexample: the unit string "QQQ" matches no alias group, the call
fails with BAD_ARGUMENTS, but the message embeds the case-folded token "qqq"
and does not contain the token as supplied. -/
theorem dateDiff_unknown_unit_message_cex :
    dateDiffExecuteImpl (fun _ _ _ => 0) "QQQ" (DCol.vec16 []) (DCol.vec16 []) 0 0
      = Except.error (DBErr.badArguments "Function dateDiff does not support 'qqq' unit")
    ∧ hasSubstr "QQQ".data ("Function dateDiff does not support 'qqq' unit").data = false := by
  exact ⟨rfl, by decide⟩

/-- C6 amended: for every unit string whose case-folded form matches no alias
group, dateDiff fails with a BadArguments-class error whose message embeds
the case-folded offending token, and no result column is produced. -/
theorem dateDiff_unknown_unit_badargs (Tf : UnitTag → Nat → Nat → Nat) (u : String)
    (x y : DCol) (tzx tzy : Nat) (h : resolveUnit (strToLower u) = none) :
    ∃ msg, dateDiffExecuteImpl Tf u x y tzx tzy = Except.error (DBErr.badArguments msg)
      ∧ hasSubstr (strToLower u).data msg.data = true := by
  refine ⟨"Function dateDiff does not support '" ++ strToLower u ++ "' unit", ?_, ?_⟩
  · unfold dateDiffExecuteImpl
    rw [h]
  · have hdata : ("Function dateDiff does not support '" ++ strToLower u ++ "' unit").data
        = "Function dateDiff does not support '".data ++ (strToLower u).data
          ++ "' unit".data := by
      simp [String.data_append]
    rw [hdata]
    exact hasSubstr_append _ _ _

/-- C6 amended witness: the unrecognized unit "Fortnight". -/
theorem dateDiff_unknown_unit_badargs_witness :
    ∃ msg, dateDiffExecuteImpl (fun _ _ _ => 1) "Fortnight" (DCol.vec16 [5]) (DCol.const16 2) 3 4
        = Except.error (DBErr.badArguments msg)
      ∧ hasSubstr (strToLower "Fortnight").data msg.data = true :=
  dateDiff_unknown_unit_badargs (fun _ _ _ => 1) "Fortnight" (DCol.vec16 [5]) (DCol.const16 2)
    3 4 (by decide)

/-- C7: antisymmetry of the per-row difference: with identical timezone
resolution, calculate(a, b) is the negation of calculate(b, a) for every
transform. -/
theorem dateDiff_antisymmetry (T : Nat → Nat → Nat) (a b tz : Nat) :
    calculate T a b tz tz = - calculate T b a tz tz := by
  unfold calculate
  rw [neg_sub]

/-- C9: with a constant first temporal argument, a constant second temporal
argument is rejected by the dispatcher with an IllegalColumn-class error for
the second argument; the constant×constant path never computes a result. -/
theorem dateDiff_const_const_illegal (T : Nat → Nat → Nat) (x y : DCol) (tzx tzy : Nat)
    (hx : x.isConst = true) (hy : y.isConst = true) :
    dispatchForColumns T x y tzx tzy = Except.error (DBErr.illegalColumn 2
      "Illegal column for second argument of function dateDiff, must be Date or DateTime") := by
  cases x with
  | vec16 xs => simp [DCol.isConst] at hx
  | vec32 xs => simp [DCol.isConst] at hx
  | other => simp [DCol.isConst] at hx
  | const16 c =>
    cases y with
    | vec16 ys => simp [DCol.isConst] at hy
    | vec32 ys => simp [DCol.isConst] at hy
    | other => rfl
    | const16 d => rfl
    | const32 d => rfl
  | const32 c =>
    cases y with
    | vec16 ys => simp [DCol.isConst] at hy
    | vec32 ys => simp [DCol.isConst] at hy
    | other => rfl
    | const16 d => rfl
    | const32 d => rfl

/-- C9 witness: two constant temporal arguments. -/
theorem dateDiff_const_const_illegal_witness :
    dispatchForColumns (fun v t => v * t) (DCol.const16 9) (DCol.const32 4) 1 2
      = Except.error (DBErr.illegalColumn 2
        "Illegal column for second argument of function dateDiff, must be Date or DateTime") :=
  dateDiff_const_const_illegal (fun v t => v * t) (DCol.const16 9) (DCol.const32 4) 1 2 rfl rfl

/-- C2: arrayConcat over N well-shaped array arguments (after casting to the
return type) yields per row the ordered concatenation of the arguments' row-r
slices, whose length is the sum of the per-row lengths; concatenating a
single array argument of the return type yields its rows unchanged. -/
theorem arrayConcat_rowwise_correct {α : Type} (args : List (ArgCol α)) (rows : Nat)
    (hok : ∀ c ∈ args, c ≠ ArgCol.other) :
    (∃ out, arrayConcatExecuteImpl RetType.array args rows = Except.ok (ArrResult.arr out) ∧
      out.length = rows ∧
      ∀ r, r < rows →
        out.getD r [] = (args.map fun c => c.rowSlice r).flatten ∧
        (out.getD r []).length = (args.map fun c => (c.rowSlice r).length).sum)
    ∧ ∀ (a : List (List α)),
        arrayConcatExecuteImpl RetType.array [ArgCol.arr a] a.length
          = Except.ok (ArrResult.arr a) := by
  constructor
  · refine ⟨gatherConcat (args.map toSourceTotal) rows, ?_, ?_, ?_⟩
    · simp [arrayConcatExecuteImpl, buildSources_ok args hok]
    · simp [gatherConcat]
    · intro r hr
      have hout : (gatherConcat (args.map toSourceTotal) rows).getD r []
          = ((args.map toSourceTotal).map fun s => s.sliceAt r).flatten :=
        getD_map_range _ _ _ _ hr
      have hmaps : ((args.map toSourceTotal).map fun s => s.sliceAt r)
          = args.map fun c => c.rowSlice r := by
        rw [List.map_map]
        exact List.map_congr_left (fun c hc => sliceAt_toSourceTotal c (hok c hc) r)
      constructor
      · rw [hout, hmaps]
      · rw [hout, hmaps, List.length_flatten, List.map_map]
        rfl
  · intro a
    have hok1 : ∀ c ∈ [ArgCol.arr a], c ≠ ArgCol.other := by simp
    have hbs := buildSources_ok [ArgCol.arr a] hok1
    simp only [arrayConcatExecuteImpl, hbs, List.map_cons, List.map_nil, toSourceTotal]
    have : gatherConcat [ArraySource.vec a] a.length = a := by
      unfold gatherConcat
      simp only [List.map_cons, List.map_nil, List.flatten_cons, List.flatten_nil,
        List.append_nil, ArraySource.sliceAt]
      exact map_range_getD a []
    rw [this]

/-- C2 witness: two array arguments and one constant array argument. -/
theorem arrayConcat_rowwise_correct_witness :
    (∃ out, arrayConcatExecuteImpl RetType.array
        [ArgCol.arr [[1, 2], [4]], ArgCol.constArr [9]] 2 = Except.ok (ArrResult.arr out) ∧
      out.length = 2 ∧
      ∀ r, r < 2 →
        out.getD r [] = ([ArgCol.arr [[1, 2], [4]], ArgCol.constArr [9]].map
          fun c => c.rowSlice r).flatten ∧
        (out.getD r []).length = ([ArgCol.arr [[1, 2], [4]], ArgCol.constArr [9]].map
          fun c => (c.rowSlice r).length).sum)
    ∧ ∀ (a : List (List Nat)),
        arrayConcatExecuteImpl RetType.array [ArgCol.arr a] a.length
          = Except.ok (ArrResult.arr a) :=
  arrayConcat_rowwise_correct [ArgCol.arr [[1, 2], [4]], ArgCol.constArr [9]] 2 (by decide)

/-- C3: popFront is the unbounded left slice at offset 1: every row of length
n becomes its slice [min(1, n), n), so a non-empty row loses exactly its
first element and an empty row stays empty, with no error. -/
theorem arrayPop_front_correct {α : Type} (a : List (List α)) (sz : Nat) :
    arrayPopExecuteImpl true RetType.array (ArgCol.arr a) sz
      = Except.ok (ArrResult.arr (a.map fun row => row.drop (min 1 row.length)))
    ∧ (∀ (x : α) (l : List α), (x :: l).drop (min 1 (x :: l).length) = l)
    ∧ (([] : List α).drop (min 1 ([] : List α).length) = []) := by
  refine ⟨rfl, ?_, rfl⟩
  intro x l
  have h1 : min 1 (x :: l).length = 1 := by
    simp only [List.length_cons]
    omega
  rw [h1]
  rfl

/-- C4: popBack is the bounded left slice at offset 0 with length −1: every
row becomes its slice [0, n−1) clamped to the row, so a non-empty row loses
exactly its trailing element and out-of-range bounds (the empty row) give an
empty row, with no error. -/
theorem arrayPop_back_correct {α : Type} (a : List (List α)) (sz : Nat) :
    arrayPopExecuteImpl false RetType.array (ArgCol.arr a) sz
      = Except.ok (ArrResult.arr (a.map fun row => boundedSlice row 0 (-1)))
    ∧ (∀ row : List α, boundedSlice row 0 (-1) = row.dropLast)
    ∧ boundedSlice ([] : List α) 0 (-1) = [] :=
  ⟨rfl, fun row => boundedSlice_zero_neg_one row, boundedSlice_zero_neg_one []⟩

/-- C8: isNotNull reads the null bitmap directly: a Nullable input yields a
UInt8 vector negating the null map row by row, a non-Nullable input yields a
Constant UInt8 column of value 1 with the input column's length. -/
theorem isNotNull_reads_null_map {α : Type} (vals : List α) (nullMap : List Bool)
    (rows : Nat) (h : rows = nullMap.length) :
    (∃ out, isNotNullExecuteImpl (InCol.nullable vals nullMap) rows = OutCol.vec out ∧
      out.length = rows ∧
      ∀ i, ∀ hi : i < rows, out.getD i 0 = if nullMap.get ⟨i, h ▸ hi⟩ then 0 else 1)
    ∧ ∀ (pvals : List α), isNotNullExecuteImpl (InCol.plain pvals) rows
        = OutCol.constant pvals.length 1 := by
  constructor
  · refine ⟨_, rfl, by simp [isNotNullExecuteImpl], ?_⟩
    intro i hi
    rw [getD_map_range _ _ _ _ hi, List.getD_eq_getElem nullMap false (h ▸ hi),
      List.get_eq_getElem]
  · intro pvals
    rfl

/-- C8 witness: a two-row Nullable column with one null row. -/
theorem isNotNull_reads_null_map_witness :
    (∃ out, isNotNullExecuteImpl (InCol.nullable [10, 20] [false, true]) 2 = OutCol.vec out ∧
      out.length = 2 ∧
      ∀ i, ∀ hi : i < 2, out.getD i 0 = if [false, true].get ⟨i, hi⟩ then 0 else 1)
    ∧ ∀ (pvals : List Nat), isNotNullExecuteImpl (InCol.plain pvals) 2
        = OutCol.constant pvals.length 1 :=
  isNotNull_reads_null_map [10, 20] [false, true] 2 rfl

/-- C10: with an only-null declared return type, both arrayConcat and
arrayPop short-circuit to a Constant default-value column of exactly
input_rows_count rows, regardless of the arguments and without an error. -/
theorem onlyNull_short_circuit {α : Type} :
    (∀ (args : List (ArgCol α)) (rows : Nat),
        arrayConcatExecuteImpl RetType.onlyNull args rows
          = Except.ok (ArrResult.constDefault rows))
    ∧ (∀ (pf : Bool) (arg : ArgCol α) (rows : Nat),
        arrayPopExecuteImpl pf RetType.onlyNull arg rows
          = Except.ok (ArrResult.constDefault rows)) :=
  ⟨fun _ _ => rfl, fun _ _ _ => rfl⟩

end CH
